import Mathlib

/-!
Shallow embedding of the two launcher programs `paper.c` and `cheveret.c`:
the load-status handling of each `main`, the capability functions
(`get_is_devel_lua`, `get_app_id_lua`, `get_cli_args_lua`, `getcwd_lua`,
`forkexec_lua`, `forkcdexec_lua`), the `lua_prepare` registration sequence,
and the bootstrap ordering of events.  Machine-level inputs that come from
the outside world (the status code `luaL_loadbuffer` returns, the success of
`fork`/`chdir`/`execv`, the OS's idea of the current directory, the build
configuration `DEVEL`) are explicit parameters.
-/

/-- `LUA_OK`, the success status of `luaL_loadbuffer` (lua.h). -/
def LUA_OK : Nat := 0

/-- `LUA_ERRSYNTAX` status code (lua.h). -/
def LUA_ERRSYNTAX : Nat := 3

/-- `LUA_ERRMEM` status code (lua.h). -/
def LUA_ERRMEM : Nat := 4

/-- What a launcher's `main` does once `luaL_loadbuffer` has returned:
the diagnostic lines written to stderr, the value `main` returns (the
process exit code), and whether the loaded unit is invoked (`lua_call`). -/
structure LoadOutcome where
  stderrLines : List String
  exitCode : Int
  invoked : Bool
deriving DecidableEq, Repr

/-- The `switch` on `luaL_loadbuffer`'s status in `paper.c` `main`
(lines 124-142).  `msg` is the error message `luaL_checkstring(L, -1)`
reads from the Lua stack on a syntax error.  The `default` case prints a
diagnostic and returns -1. -/
def paperMainAfterLoad (status : Nat) (msg : String) : LoadOutcome :=
  if status = LUA_ERRSYNTAX then
    { stderrLines := ["Failed to load Paper: embedded binary is malformed.", msg]
    , exitCode := 1, invoked := false }
  else if status = LUA_ERRMEM then
    { stderrLines := ["Failed to load Paper: could not allocate memory."]
    , exitCode := 2, invoked := false }
  else if status = LUA_OK then
    { stderrLines := [], exitCode := 0, invoked := true }
  else
    { stderrLines := ["Failed to load Paper: an unhandled error ocurred."]
    , exitCode := -1, invoked := false }

/-- The `switch` on `luaL_loadbuffer`'s status in `cheveret.c` `main`
(lines 133-147).  This `switch` has no `default` case: a status other than
`LUA_ERRSYNTAX`, `LUA_ERRMEM` or `LUA_OK` matches no case, so control falls
out of the `switch` and reaches `lua_call(L, 0, 0)` just as on `LUA_OK`. -/
def cheveretMainAfterLoad (status : Nat) (msg : String) : LoadOutcome :=
  if status = LUA_ERRSYNTAX then
    { stderrLines := ["Failed to load Cheveret: embedded binary is malformed.", msg]
    , exitCode := 1, invoked := false }
  else if status = LUA_ERRMEM then
    { stderrLines := ["Failed to load Cheveret: could not allocate memory."]
    , exitCode := 2, invoked := false }
  else
    { stderrLines := [], exitCode := 0, invoked := true }

/-- `get_is_devel_lua` (both launchers): pushes the boolean selected by the
`DEVEL` build flag.  The build configuration is the parameter `devel`. -/
def get_is_devel_lua (devel : Bool) : Bool :=
  if devel then true else false

/-- `get_app_id_lua` of `paper.c` (lines 33-42): the application id string
selected by the `DEVEL` build flag. -/
def paperGetAppId (devel : Bool) : String :=
  if devel then "ca.vlacroix.Paper.Devel" else "ca.vlacroix.Paper"

/-- `get_app_id_lua` of `cheveret.c` (lines 29-38). -/
def cheveretGetAppId (devel : Bool) : String :=
  if devel then "ca.vlacroix.Cheveret.Devel" else "ca.vlacroix.Cheveret"

/-- `BUFSIZ` of glibc stdio.h on the target platform. -/
def BUFSIZ : Nat := 8192

/-- The `for` loop of `get_cli_args_lua` (paper.c lines 58-67): push each
element of the argument vector onto the Lua stack in order.  The stack is a
list with the bottom first, so a push appends at the end. -/
def pushArgsLoop (stack : List String) : List String → List String
  | [] => stack
  | a :: rest => pushArgsLoop (stack ++ [a]) rest

/-- `get_cli_args_lua` (paper.c lines 58-67): pushes `argv[0] .. argv[argc-1]`
onto the stack and returns `argc`, the number of result values.  The static
`argc`/`argv` globals are `main`'s `_argc`/`_argv` (paper.c lines 111-112),
modelled as the list `args` of invocation arguments. -/
def get_cli_args_lua (args stack : List String) : List String × Nat :=
  (pushArgsLoop stack args, args.length)

/-- POSIX `getcwd(buf, size)`: succeeds and fills `buf` with the current
working directory exactly when the path and its terminating NUL fit in
`size` bytes; otherwise returns NULL. -/
def os_getcwd (realCwd : String) (size : Nat) : Option String :=
  if realCwd.utf8ByteSize + 1 ≤ size then some realCwd else none

/-- The result of one Lua capability call: the values it pushes as results
and whether it raises a Lua error. -/
structure CapResult where
  results : List String
  errorRaised : Bool
deriving DecidableEq, Repr

/-- `getcwd_lua` (cheveret.c lines 51-61): calls `getcwd(path, BUFSIZ - 1)`
on a `char path[BUFSIZ]` buffer; on NULL returns 0 results, otherwise pushes
the path and returns 1 result.  Neither branch raises a Lua error. -/
def getcwd_lua (realCwd : String) : CapResult :=
  match os_getcwd realCwd (BUFSIZ - 1) with
  | none => { results := [], errorRaised := false }
  | some p => { results := [p], errorRaised := false }

/-- How the forked child of a spawn capability ends. `fellThrough` stands
for the child surviving past the `if` block into the duplicated parent code
(the `return 0` of the Lua function); the source prevents it with the
unconditional `exit(0)`. -/
inductive ChildEnd where
  | replaced
  | exited (code : Nat)
  | fellThrough
deriving DecidableEq, Repr

/-- Observable behaviour of the forked child: whether the `strcpy` of the
command into `program` ran, the buffer's contents after it, whether `execv`
was called, the child's working directory when it ends, and how it ends. -/
structure ChildRun where
  copiedCmd : Bool
  programBuf : String
  execCalled : Bool
  cwd : String
  outcome : ChildEnd
deriving DecidableEq, Repr

/-- The child branch of `forkexec_lua` (paper.c lines 77-87): copy `cmd`
into `program` with `strcpy`, then `execv("/usr/bin/sh", ...)`; if `execv`
returns (failure), `exit(0)`.  `execOk` is whether the `execv` call
succeeds; the child inherits the parent's working directory `parentCwd`. -/
def forkexecChild (parentCwd cmd : String) (execOk : Bool) : ChildRun :=
  { copiedCmd := true
  , programBuf := cmd
  , execCalled := true
  , cwd := parentCwd
  , outcome := if execOk then .replaced else .exited 0 }

/-- The child branch of `forkcdexec_lua` (cheveret.c lines 73-84): copy
`bin` into `program`, then `if (!chdir(dir)) execv(...)`; in every failing
path the child reaches `exit(0)`.  `execv` is only reached when the `chdir`
succeeded, and a successful `chdir` moves the child (not the parent) to
`dir`. -/
def forkcdexecChild (parentCwd dir cmd : String) (chdirOk execOk : Bool) : ChildRun :=
  if chdirOk then
    { copiedCmd := true
    , programBuf := cmd
    , execCalled := true
    , cwd := dir
    , outcome := if execOk then .replaced else .exited 0 }
  else
    { copiedCmd := true
    , programBuf := cmd
    , execCalled := false
    , cwd := parentCwd
    , outcome := .exited 0 }

/-- The whole spawn capability call as the parent observes it: the number of
Lua result values, the parent's working directory after the call, whether
the parent waited on the child, the child process handle the parent keeps,
and what the forked child does. -/
structure SpawnCall where
  nresults : Nat
  parentCwdAfter : String
  parentWaited : Bool
  childHandle : Option Nat
  child : ChildRun
deriving DecidableEq, Repr

/-- `forkexec_lua` (paper.c lines 69-89).  The parent's branch of
`if (!fork()) ... ; return 0;`: the pid `fork` returns is discarded, no
`wait` of any kind is called, the parent's state is untouched, and the Lua
function returns 0 results. -/
def forkexec_lua (parentCwd cmd : String) (execOk : Bool) : SpawnCall :=
  { nresults := 0
  , parentCwdAfter := parentCwd
  , parentWaited := false
  , childHandle := none
  , child := forkexecChild parentCwd cmd execOk }

/-- `forkcdexec_lua` (cheveret.c lines 63-86), parent's view as in
`forkexec_lua`. -/
def forkcdexec_lua (parentCwd dir cmd : String) (chdirOk execOk : Bool) : SpawnCall :=
  { nresults := 0
  , parentCwdAfter := parentCwd
  , parentWaited := false
  , childHandle := none
  , child := forkcdexecChild parentCwd dir cmd chdirOk execOk }

/-- The byte offsets into `program[BUFSIZ]` that `strcpy(program, cmd)`
writes: the bytes of `cmd` and the terminating NUL, offsets `0 .. len`. -/
def strcpyWrittenOffsets (cmd : String) : List Nat :=
  List.range (cmd.utf8ByteSize + 1)

/-- The `strcpy` into the child's `char program[BUFSIZ]` stays within the
buffer's bounds: every written offset is below `BUFSIZ`. -/
def strcpyInBounds (cmd : String) : Prop :=
  ∀ i ∈ strcpyWrittenOffsets cmd, i < BUFSIZ

instance (cmd : String) : Decidable (strcpyInBounds cmd) :=
  inferInstanceAs (Decidable (∀ i ∈ strcpyWrittenOffsets cmd, i < BUFSIZ))

/-- One step of a launcher's bootstrap sequence, in program order. -/
inductive BootEvent where
  | openlibs
  | register (name : String)
  | load
  | invoke
deriving DecidableEq, Repr

/-- `true` on the setup events that must come before the load: opening the
standard libraries and registering a capability table. -/
def BootEvent.isSetup : BootEvent → Bool
  | .openlibs => true
  | .register _ => true
  | _ => false

/-- The event trace of `paper.c` `main` (lines 114-142): `luaL_openlibs`,
the inline registration of `paperlib` into `package.loaded`, the
`luaL_loadbuffer` call, then `lua_call` exactly when the switch let control
through (status `LUA_OK`). -/
def paperBootTrace (status : Nat) (msg : String) : List BootEvent :=
  [.openlibs, .register "paperlib", .load]
    ++ (if (paperMainAfterLoad status msg).invoked then [.invoke] else [])

/-- The event trace of `cheveret.c` `main` (lines 129-147): `luaL_openlibs`,
`lua_prepare` for `chevlib` and for `inotify`, the `luaL_loadbuffer` call,
then `lua_call` whenever control leaves the switch without returning. -/
def cheveretBootTrace (status : Nat) (msg : String) : List BootEvent :=
  [.openlibs, .register "chevlib", .register "inotify", .load]
    ++ (if (cheveretMainAfterLoad status msg).invoked then [.invoke] else [])

/-- A Lua value, as far as the registration sequence needs: nil, a string,
a table named by a heap id, or a registered C function named by its C
symbol. -/
inductive LVal where
  | nil
  | str (s : String)
  | table (id : Nat)
  | cfun (sym : String)
deriving DecidableEq, Repr

/-- Lookup in an association list of table fields. -/
def fieldGet : List (String × LVal) → String → Option LVal
  | [], _ => none
  | (k, v) :: rest, key => if k = key then some v else fieldGet rest key

/-- Set a field in an association list of table fields (overwrite or add). -/
def fieldSet : List (String × LVal) → String → LVal → List (String × LVal)
  | [], key, v => [(key, v)]
  | (k, w) :: rest, key, v =>
    if k = key then (k, v) :: rest else (k, w) :: fieldSet rest key v

/-- Lookup of a table's fields in the heap by table id. -/
def heapGet : List (Nat × List (String × LVal)) → Nat → Option (List (String × LVal))
  | [], _ => none
  | (i, t) :: rest, id => if i = id then some t else heapGet rest id

/-- Update one field of the table `id` in the heap; a missing id changes
nothing. -/
def heapSet : List (Nat × List (String × LVal)) → Nat → String → LVal →
    List (Nat × List (String × LVal))
  | [], _, _, _ => []
  | (i, t) :: rest, id, key, v =>
    if i = id then (i, fieldSet t key v) :: rest else (i, t) :: heapSet rest id key v

/-- The slice of a `lua_State` the registration sequence touches: the value
stack (top first), the global table, the table heap, and the next fresh
table id. -/
structure LState where
  stack : List LVal
  globals : List (String × LVal)
  heap : List (Nat × List (String × LVal))
  nextId : Nat
deriving DecidableEq, Repr

/-- `lua_getglobal(L, name)`: push the global `name` (nil when absent). -/
def lua_getglobal (st : LState) (name : String) : LState :=
  { st with stack := (fieldGet st.globals name).getD .nil :: st.stack }

/-- `lua_getfield(L, idx, k)` for a negative `idx`; `pos` counts from the
top, `pos = 1` being the top (C index -1).  Pushes `t[k]` where `t` is the
value at `pos`; nil when that value is not a table or has no such field
(the error Lua would raise on a non-table is not modelled: the registration
sequence only indexes tables). -/
def lua_getfield (st : LState) (pos : Nat) (k : String) : LState :=
  let v :=
    match st.stack.getD (pos - 1) .nil with
    | .table id =>
      match heapGet st.heap id with
      | some t => (fieldGet t k).getD .nil
      | none => .nil
    | _ => .nil
  { st with stack := v :: st.stack }

/-- `lua_remove(L, idx)` for a negative `idx`; `pos` counts from the top as
in `lua_getfield`.  Removes the value at `pos`, shifting the ones above. -/
def lua_remove (st : LState) (pos : Nat) : LState :=
  { st with stack := st.stack.eraseIdx (pos - 1) }

/-- `lua_pushstring(L, s)`. -/
def lua_pushstring (st : LState) (s : String) : LState :=
  { st with stack := .str s :: st.stack }

/-- `luaL_newlib(L, reg)`: allocate a fresh table holding the registered
functions `fields` and push it. -/
def luaL_newlib (st : LState) (fields : List (String × LVal)) : LState :=
  { st with
    stack := .table st.nextId :: st.stack
  , heap := (st.nextId, fields) :: st.heap
  , nextId := st.nextId + 1 }

/-- `lua_settable(L, idx)` for a negative `idx`; `pos` counts from the top
before popping.  With `t` the table at `pos`, `k` the value below the top
and `v` the top: pops `k` and `v` and sets `t[k] = v` (a non-table `t` or
non-string key leaves the heap unchanged; the sequence never does that). -/
def lua_settable (st : LState) (pos : Nat) : LState :=
  let v := st.stack.getD 0 .nil
  let k := st.stack.getD 1 .nil
  let t := st.stack.getD (pos - 1) .nil
  let popped := { st with stack := st.stack.drop 2 }
  match t, k with
  | .table id, .str key => { popped with heap := heapSet popped.heap id key v }
  | _, _ => popped

/-- `lua_prepare(L, f, name)` (cheveret.c lines 105-118), with the library
open function `f` modelled by the field list its `luaL_newlib` registers:
`lua_getglobal(L, "package")`; `lua_getfield(L, -1, "loaded")`;
`lua_remove(L, -2)`; `lua_pushstring(L, name)`; `f(L)`;
`lua_settable(L, -3)`; `lua_remove(L, -1)`.  The inline registration in
paper.c `main` (lines 116-122) is this same sequence with
`luaL_newlib(L, paperlib)` in place of `f(L)`. -/
def lua_prepare (st : LState) (fields : List (String × LVal)) (name : String) : LState :=
  let st1 := lua_getglobal st "package"
  let st2 := lua_getfield st1 1 "loaded"
  let st3 := lua_remove st2 2
  let st4 := lua_pushstring st3 name
  let st5 := luaL_newlib st4 fields
  let st6 := lua_settable st5 3
  lua_remove st6 1

/-- The registration sequence inlined in paper.c `main` (lines 116-122),
literally the same seven stack operations with the `paperlib` registry. -/
def paperMainRegister (st : LState) (fields : List (String × LVal)) : LState :=
  let st1 := lua_getglobal st "package"
  let st2 := lua_getfield st1 1 "loaded"
  let st3 := lua_remove st2 2
  let st4 := lua_pushstring st3 "paperlib"
  let st5 := luaL_newlib st4 fields
  let st6 := lua_settable st5 3
  lua_remove st6 1

/-- The `paperlib` registry array (paper.c lines 91-99), its sentinel
excluded: the capability table's fields. -/
def paperlibFields : List (String × LVal) :=
  [ ("get_is_devel", .cfun "get_is_devel_lua")
  , ("get_app_id", .cfun "get_app_id_lua")
  , ("get_app_ver", .cfun "get_app_ver_lua")
  , ("get_cli_args", .cfun "get_cli_args_lua")
  , ("forkexec", .cfun "forkexec_lua") ]

/-- The `chevlib` registry array (cheveret.c lines 88-96). -/
def chevlibFields : List (String × LVal) :=
  [ ("get_is_devel", .cfun "get_is_devel_lua")
  , ("get_app_id", .cfun "get_app_id_lua")
  , ("get_app_ver", .cfun "get_app_ver_lua")
  , ("getcwd", .cfun "getcwd_lua")
  , ("forkcdexec", .cfun "forkcdexec_lua") ]

/-- The runtime's ordinary module-import mechanism for an already loaded
module: `require name` first consults `package.loaded[name]` and returns it
when present. -/
def requireLoaded (st : LState) (name : String) : Option LVal :=
  match fieldGet st.globals "package" with
  | some (.table pid) =>
    match heapGet st.heap pid with
    | some pkgT =>
      match fieldGet pkgT "loaded" with
      | some (.table lid) =>
        match heapGet st.heap lid with
        | some loadedT => fieldGet loadedT name
        | none => none
      | _ => none
    | none => none
  | _ => none

/-- The string `s` carries the suffix `suf`, read on the character lists. -/
def carriesSuffix (s suf : String) : Bool :=
  suf.data.isSuffixOf s.data


/-- A minimal well-formed runtime state right after `luaL_openlibs`: the
`package` global is table 0, whose `loaded` field is table 1 and empty. -/
def freshState : LState :=
  { stack := []
  , globals := [("package", .table 0)]
  , heap := [(0, [("loaded", .table 1)]), (1, [])]
  , nextId := 2 }

/-! ## Helper lemmas -/

theorem pushArgsLoop_eq_append (args : List String) :
    ∀ stack, pushArgsLoop stack args = stack ++ args := by
  induction args with
  | nil => intro stack; simp [pushArgsLoop]
  | cons a rest ih => intro stack; simp [pushArgsLoop, ih]

theorem fieldGet_fieldSet_self (t : List (String × LVal)) (k : String) (v : LVal) :
    fieldGet (fieldSet t k v) k = some v := by
  induction t with
  | nil => simp [fieldSet, fieldGet]
  | cons p rest ih =>
    by_cases h : p.1 = k
    · simp [fieldSet, fieldGet, h]
    · simp [fieldSet, fieldGet, h, ih]

theorem heapGet_heapSet_ne (h : List (Nat × List (String × LVal))) (i id : Nat)
    (k : String) (v : LVal) (hne : i ≠ id) :
    heapGet (heapSet h id k v) i = heapGet h i := by
  induction h with
  | nil => simp [heapSet, heapGet]
  | cons p rest ih =>
    obtain ⟨a, t⟩ := p
    by_cases hp : a = id
    · subst hp
      simp [heapSet, heapGet, Ne.symm hne]
    · by_cases hq : a = i
      · subst hq
        simp [heapSet, heapGet, hp]
      · simp [heapSet, heapGet, hp, hq, ih]

theorem heapGet_heapSet_self (h : List (Nat × List (String × LVal))) (id : Nat)
    (k : String) (v : LVal) (t : List (String × LVal)) (ht : heapGet h id = some t) :
    heapGet (heapSet h id k v) id = some (fieldSet t k v) := by
  induction h with
  | nil => simp [heapGet] at ht
  | cons p rest ih =>
    obtain ⟨a, u⟩ := p
    by_cases hp : a = id
    · subst hp
      simp [heapGet] at ht
      simp [heapSet, heapGet, ht]
    · simp [heapGet, hp] at ht
      simp [heapSet, heapGet, hp, ih ht]

theorem shape_orders_events (pre post t : List BootEvent)
    (ht : t = pre ++ BootEvent.load :: post)
    (hpre : ∀ e ∈ pre, e.isSetup = true)
    (hpost : ∀ e ∈ post, e = BootEvent.invoke) :
    (∀ i e, t[i]? = some e → e.isSetup = true → i < pre.length)
    ∧ (∀ j, t[j]? = some BootEvent.load → j = pre.length)
    ∧ (∀ k, t[k]? = some BootEvent.invoke → pre.length < k) := by
  subst ht
  refine ⟨?_, ?_, ?_⟩
  · intro i e hget hsetup
    by_contra hlt
    push_neg at hlt
    rw [List.getElem?_append_right hlt] at hget
    rcases Nat.eq_or_lt_of_le hlt with heq | hlt'
    · rw [← heq, Nat.sub_self] at hget
      simp at hget
      subst hget
      simp [BootEvent.isSetup] at hsetup
    · have hd : i - pre.length = (i - pre.length - 1) + 1 := by omega
      rw [hd] at hget
      simp only [List.getElem?_cons_succ] at hget
      have hmem : e ∈ post := List.getElem?_mem hget
      have he := hpost e hmem
      subst he
      simp [BootEvent.isSetup] at hsetup
  · intro j hget
    by_cases hlt : j < pre.length
    · rw [List.getElem?_append_left hlt] at hget
      have hmem : BootEvent.load ∈ pre := List.getElem?_mem hget
      have := hpre _ hmem
      simp [BootEvent.isSetup] at this
    · push_neg at hlt
      rcases Nat.eq_or_lt_of_le hlt with heq | hlt'
      · omega
      · exfalso
        rw [List.getElem?_append_right hlt] at hget
        have hd : j - pre.length = (j - pre.length - 1) + 1 := by omega
        rw [hd] at hget
        simp only [List.getElem?_cons_succ] at hget
        have hmem : BootEvent.load ∈ post := List.getElem?_mem hget
        exact absurd (hpost _ hmem) (by simp)
  · intro k hget
    by_cases hlt : k < pre.length
    · rw [List.getElem?_append_left hlt] at hget
      have hmem : BootEvent.invoke ∈ pre := List.getElem?_mem hget
      have := hpre _ hmem
      simp [BootEvent.isSetup] at this
    · push_neg at hlt
      rcases Nat.eq_or_lt_of_le hlt with heq | hlt'
      · exfalso
        rw [List.getElem?_append_right hlt, ← heq, Nat.sub_self] at hget
        simp at hget
      · exact hlt'

/-! ## Claims -/

/-- C1: for every load of the embedded blob, a `LUA_ERRSYNTAX` result makes
either launcher print its fixed diagnostic line plus the runtime's error
message to stderr and return exit code exactly 1, and a `LUA_ERRMEM` result
makes it print a fixed diagnostic line and return exit code exactly 2; in
all four cases the loaded unit is never invoked. -/
theorem C1_load_error_paths (msg : String) :
    paperMainAfterLoad LUA_ERRSYNTAX msg =
      { stderrLines := ["Failed to load Paper: embedded binary is malformed.", msg]
      , exitCode := 1, invoked := false }
    ∧ paperMainAfterLoad LUA_ERRMEM msg =
      { stderrLines := ["Failed to load Paper: could not allocate memory."]
      , exitCode := 2, invoked := false }
    ∧ cheveretMainAfterLoad LUA_ERRSYNTAX msg =
      { stderrLines := ["Failed to load Cheveret: embedded binary is malformed.", msg]
      , exitCode := 1, invoked := false }
    ∧ cheveretMainAfterLoad LUA_ERRMEM msg =
      { stderrLines := ["Failed to load Cheveret: could not allocate memory."]
      , exitCode := 2, invoked := false } :=
  ⟨rfl, rfl, rfl, rfl⟩

/-- C2 (counterexample to the claim as stated): at load status 5 — which is
neither `LUA_OK` nor `LUA_ERRSYNTAX` nor `LUA_ERRMEM` — the cheveret
launcher does not treat the load as fatal: it prints nothing, falls through
its `switch` (which has no `default` case), invokes the unit and would exit
0, contradicting that "both launchers" print a diagnostic, exit non-zero
and never invoke the unit. -/
theorem C2_counterexample :
    (5 ≠ LUA_OK ∧ 5 ≠ LUA_ERRSYNTAX ∧ 5 ≠ LUA_ERRMEM)
    ∧ cheveretMainAfterLoad 5 "boom" =
      { stderrLines := [], exitCode := 0, invoked := true } := by
  decide

/-- C2 (amended): for every load status other than success, syntax error or
memory error, the paper launcher treats the load as fatal — fixed
diagnostic line, exit code -1 (non-zero and distinct from 1 and 2), unit
never invoked — while the cheveret launcher's `switch`, having no `default`
case, falls through without any diagnostic and invokes the unit. -/
theorem C2_unhandled_status (status : Nat) (msg : String)
    (h0 : status ≠ LUA_OK) (h3 : status ≠ LUA_ERRSYNTAX) (h4 : status ≠ LUA_ERRMEM) :
    paperMainAfterLoad status msg =
      { stderrLines := ["Failed to load Paper: an unhandled error ocurred."]
      , exitCode := -1, invoked := false }
    ∧ ((-1 : Int) ≠ 0 ∧ (-1 : Int) ≠ 1 ∧ (-1 : Int) ≠ 2)
    ∧ cheveretMainAfterLoad status msg =
      { stderrLines := [], exitCode := 0, invoked := true } := by
  refine ⟨?_, by decide, ?_⟩
  · simp only [paperMainAfterLoad, LUA_ERRSYNTAX, LUA_ERRMEM, LUA_OK] at *
    rw [if_neg h3, if_neg h4, if_neg h0]
  · simp only [cheveretMainAfterLoad, LUA_ERRSYNTAX, LUA_ERRMEM] at *
    rw [if_neg h3, if_neg h4]

/-- C2 witness: the amended statement discharged at status 5, message "". -/
theorem C2_unhandled_status_witness :
    paperMainAfterLoad 5 "" =
      { stderrLines := ["Failed to load Paper: an unhandled error ocurred."]
      , exitCode := -1, invoked := false }
    ∧ ((-1 : Int) ≠ 0 ∧ (-1 : Int) ≠ 1 ∧ (-1 : Int) ≠ 2)
    ∧ cheveretMainAfterLoad 5 "" =
      { stderrLines := [], exitCode := 0, invoked := true } :=
  C2_unhandled_status 5 "" (by decide) (by decide) (by decide)

/-- C3: `get_cli_args_lua` pushes, above whatever `stack` held, exactly the
invocation arguments in invocation order, and returns their number as the
result count; in particular invoking with arguments `["a", "b"]` yields
exactly that two-element ordered sequence. -/
theorem C3_cli_args_passthrough (args stack : List String) :
    (get_cli_args_lua args stack).2 = args.length
    ∧ (get_cli_args_lua args stack).1 = stack ++ args
    ∧ get_cli_args_lua ["a", "b"] [] = (["a", "b"], 2) := by
  refine ⟨rfl, ?_, ?_⟩
  · simpa [get_cli_args_lua] using pushArgsLoop_eq_append args stack
  · simp [get_cli_args_lua, pushArgsLoop]

/-- C4: `get_is_devel_lua` and the application id agree in every build
configuration and for both launchers: in a development build the boolean is
true and the id carries the ".Devel" suffix; in a release build the boolean
is false and the id does not carry it. -/
theorem C4_devel_id_agreement (devel : Bool) :
    (get_is_devel_lua devel = true ↔
      carriesSuffix (paperGetAppId devel) ".Devel" = true)
    ∧ (get_is_devel_lua devel = true ↔
      carriesSuffix (cheveretGetAppId devel) ".Devel" = true)
    ∧ (devel = true →
        get_is_devel_lua devel = true
        ∧ paperGetAppId devel = "ca.vlacroix.Paper.Devel"
        ∧ cheveretGetAppId devel = "ca.vlacroix.Cheveret.Devel")
    ∧ (devel = false →
        get_is_devel_lua devel = false
        ∧ paperGetAppId devel = "ca.vlacroix.Paper"
        ∧ cheveretGetAppId devel = "ca.vlacroix.Cheveret"
        ∧ carriesSuffix (paperGetAppId devel) ".Devel" = false
        ∧ carriesSuffix (cheveretGetAppId devel) ".Devel" = false) := by
  cases devel <;> decide

/-- C5: for every call to `getcwd_lua`, when the OS query succeeds the
capability returns exactly one result — the directory path — and when the
OS query fails (the path does not fit the `BUFSIZ - 1` bytes offered) it
returns zero results; in neither case is a Lua error raised. -/
theorem C5_getcwd_results (realCwd p : String) :
    (os_getcwd realCwd (BUFSIZ - 1) = some p →
      getcwd_lua realCwd = { results := [p], errorRaised := false })
    ∧ (os_getcwd realCwd (BUFSIZ - 1) = none →
      getcwd_lua realCwd = { results := [], errorRaised := false })
    ∧ (getcwd_lua realCwd).errorRaised = false := by
  refine ⟨fun h => ?_, fun h => ?_, ?_⟩
  · simp [getcwd_lua, h]
  · simp [getcwd_lua, h]
  · unfold getcwd_lua
    cases os_getcwd realCwd (BUFSIZ - 1) <;> rfl

/-- C6: in the spawned child of either spawn capability, a failed directory
change (directory-aware variant) or a failed `execv` makes the child
terminate immediately with exit status 0, never falling through into the
duplicated parent code; and in the directory-aware variant `execv` is
called exactly when the directory change succeeded. -/
theorem C6_child_failure_exits_zero (parentCwd dir cmd : String) (chdirOk execOk : Bool) :
    ((chdirOk = false ∨ execOk = false) →
      (forkcdexecChild parentCwd dir cmd chdirOk execOk).outcome = .exited 0)
    ∧ (forkcdexecChild parentCwd dir cmd chdirOk execOk).outcome ≠ .fellThrough
    ∧ (forkcdexecChild parentCwd dir cmd chdirOk execOk).execCalled = chdirOk
    ∧ (execOk = false → (forkexecChild parentCwd cmd execOk).outcome = .exited 0)
    ∧ (forkexecChild parentCwd cmd execOk).outcome ≠ .fellThrough := by
  cases chdirOk <;> cases execOk <;>
    simp [forkcdexecChild, forkexecChild]

/-- C9: either spawn capability returns zero result values, and the calling
parent's own state is untouched: its working directory after the call is
what it was before (any directory change is confined to the child), it
never waits on the child, and it keeps no handle to it. -/
theorem C9_spawn_parent_unchanged (parentCwd dir cmd : String) (chdirOk execOk : Bool) :
    (forkcdexec_lua parentCwd dir cmd chdirOk execOk).nresults = 0
    ∧ (forkcdexec_lua parentCwd dir cmd chdirOk execOk).parentCwdAfter = parentCwd
    ∧ (forkcdexec_lua parentCwd dir cmd chdirOk execOk).parentWaited = false
    ∧ (forkcdexec_lua parentCwd dir cmd chdirOk execOk).childHandle = none
    ∧ (forkexec_lua parentCwd cmd execOk).nresults = 0
    ∧ (forkexec_lua parentCwd cmd execOk).parentCwdAfter = parentCwd
    ∧ (forkexec_lua parentCwd cmd execOk).parentWaited = false
    ∧ (forkexec_lua parentCwd cmd execOk).childHandle = none :=
  ⟨rfl, rfl, rfl, rfl, rfl, rfl, rfl, rfl⟩

/-- C10: the `strcpy` of the command into the child's fixed `char
program[BUFSIZ]` buffer is in-bounds exactly when the command's byte length
including the terminating NUL is at most `BUFSIZ`; every command strictly
shorter than `BUFSIZ` is copied in-bounds, and no length check guards the
copy — the child copies every command, whatever its length. -/
theorem C10_strcpy_bufsiz_limit (parentCwd dir cmd : String) (chdirOk execOk : Bool) :
    (strcpyInBounds cmd ↔ cmd.utf8ByteSize + 1 ≤ BUFSIZ)
    ∧ (cmd.utf8ByteSize < BUFSIZ → strcpyInBounds cmd)
    ∧ (forkexecChild parentCwd cmd execOk).copiedCmd = true
    ∧ (forkexecChild parentCwd cmd execOk).programBuf = cmd
    ∧ (forkcdexecChild parentCwd dir cmd chdirOk execOk).copiedCmd = true
    ∧ (forkcdexecChild parentCwd dir cmd chdirOk execOk).programBuf = cmd := by
  refine ⟨?_, ?_, rfl, rfl, ?_, ?_⟩
  · simp only [strcpyInBounds, strcpyWrittenOffsets, List.mem_range]
    constructor
    · intro h
      have := h cmd.utf8ByteSize (by omega)
      omega
    · intro h i hi
      omega
  · intro h
    simp only [strcpyInBounds, strcpyWrittenOffsets, List.mem_range]
    intro i hi
    omega
  · cases chdirOk <;> simp [forkcdexecChild]
  · cases chdirOk <;> simp [forkcdexecChild]

/-- C7: in every execution of either launcher's bootstrap, every setup
event (opening the standard libraries, registering a capability table)
comes strictly before the load of the embedded blob, and the load comes
strictly before any invocation of the loaded unit; all the setup events —
`openlibs` and each launcher's capability-table registrations — do occur,
as does the load. -/
theorem C7_bootstrap_order (status : Nat) (msg : String) :
    (∀ (i : Nat) (e : BootEvent), (paperBootTrace status msg)[i]? = some e →
      e.isSetup = true →
      ∀ (j : Nat), (paperBootTrace status msg)[j]? = some BootEvent.load → i < j)
    ∧ (∀ (j : Nat), (paperBootTrace status msg)[j]? = some BootEvent.load →
      ∀ (k : Nat), (paperBootTrace status msg)[k]? = some BootEvent.invoke → j < k)
    ∧ BootEvent.openlibs ∈ paperBootTrace status msg
    ∧ BootEvent.register "paperlib" ∈ paperBootTrace status msg
    ∧ BootEvent.load ∈ paperBootTrace status msg
    ∧ (∀ (i : Nat) (e : BootEvent), (cheveretBootTrace status msg)[i]? = some e →
      e.isSetup = true →
      ∀ (j : Nat), (cheveretBootTrace status msg)[j]? = some BootEvent.load → i < j)
    ∧ (∀ (j : Nat), (cheveretBootTrace status msg)[j]? = some BootEvent.load →
      ∀ (k : Nat), (cheveretBootTrace status msg)[k]? = some BootEvent.invoke → j < k)
    ∧ BootEvent.openlibs ∈ cheveretBootTrace status msg
    ∧ BootEvent.register "chevlib" ∈ cheveretBootTrace status msg
    ∧ BootEvent.register "inotify" ∈ cheveretBootTrace status msg
    ∧ BootEvent.load ∈ cheveretBootTrace status msg := by
  have hpaper := shape_orders_events [BootEvent.openlibs, .register "paperlib"]
    (if (paperMainAfterLoad status msg).invoked then [BootEvent.invoke] else [])
    (paperBootTrace status msg)
    (by by_cases hc : (paperMainAfterLoad status msg).invoked <;>
          simp [paperBootTrace, hc])
    (by decide)
    (by by_cases hc : (paperMainAfterLoad status msg).invoked <;> simp [hc])
  have hchev := shape_orders_events
    [BootEvent.openlibs, .register "chevlib", .register "inotify"]
    (if (cheveretMainAfterLoad status msg).invoked then [BootEvent.invoke] else [])
    (cheveretBootTrace status msg)
    (by by_cases hc : (cheveretMainAfterLoad status msg).invoked <;>
          simp [cheveretBootTrace, hc])
    (by decide)
    (by by_cases hc : (cheveretMainAfterLoad status msg).invoked <;> simp [hc])
  obtain ⟨hp1, hp2, hp3⟩ := hpaper
  obtain ⟨hc1, hc2, hc3⟩ := hchev
  refine ⟨?_, ?_, ?_, ?_, ?_, ?_, ?_, ?_, ?_, ?_, ?_⟩
  · intro i e hi hs j hj
    have := hp1 i e hi hs
    have := hp2 j hj
    omega
  · intro j hj k hk
    have := hp2 j hj
    have := hp3 k hk
    omega
  · simp [paperBootTrace]
  · simp [paperBootTrace]
  · simp [paperBootTrace]
  · intro i e hi hs j hj
    have := hc1 i e hi hs
    have := hc2 j hj
    omega
  · intro j hj k hk
    have := hc2 j hj
    have := hc3 k hk
    omega
  · simp [cheveretBootTrace]
  · simp [cheveretBootTrace]
  · simp [cheveretBootTrace]
  · simp [cheveretBootTrace]

/-- C8: registering a capability table under `name` (the `lua_prepare`
sequence, which the inline registration in paper.c `main` repeats verbatim)
makes the table retrievable through the module-import mechanism —
`package.loaded[name]` — under exactly `name`, holding exactly the
registered capability fields, and has no other visible effect: the global
table is unchanged (no new global binding) and the value stack is returned
exactly as it was. -/
theorem C8_registration_module_cache_only
    (st : LState) (fields : List (String × LVal)) (name : String)
    (pid lid : Nat) (pkgT loadedT : List (String × LVal))
    (h1 : fieldGet st.globals "package" = some (.table pid))
    (h2 : heapGet st.heap pid = some pkgT)
    (h3 : fieldGet pkgT "loaded" = some (.table lid))
    (h4 : heapGet st.heap lid = some loadedT)
    (hpid : pid ≠ st.nextId) (hlid : lid ≠ st.nextId) (hpl : pid ≠ lid) :
    (lua_prepare st fields name).stack = st.stack
    ∧ (lua_prepare st fields name).globals = st.globals
    ∧ requireLoaded (lua_prepare st fields name) name = some (.table st.nextId)
    ∧ heapGet (lua_prepare st fields name).heap st.nextId = some fields
    ∧ paperMainRegister st fields = lua_prepare st fields "paperlib" := by
  have hform : lua_prepare st fields name =
      { stack := st.stack
      , globals := st.globals
      , heap := (st.nextId, fields) ::
          heapSet st.heap lid name (.table st.nextId)
      , nextId := st.nextId + 1 } := by
    simp [lua_prepare, lua_getglobal, lua_getfield, lua_remove, lua_pushstring,
      luaL_newlib, lua_settable, heapSet, h1, h2, h3, Ne.symm hlid]
  refine ⟨by rw [hform], by rw [hform], ?_, ?_, rfl⟩
  · rw [hform]
    have e1 : heapGet ((st.nextId, fields) ::
        heapSet st.heap lid name (.table st.nextId)) pid = some pkgT := by
      simp [heapGet, Ne.symm hpid, heapGet_heapSet_ne _ _ _ _ _ hpl, h2]
    have e2 : heapGet ((st.nextId, fields) ::
        heapSet st.heap lid name (.table st.nextId)) lid =
        some (fieldSet loadedT name (.table st.nextId)) := by
      simp [heapGet, Ne.symm hlid, heapGet_heapSet_self _ _ _ _ _ h4]
    simp only [requireLoaded, h1, e1, h3, e2, fieldGet_fieldSet_self]
  · rw [hform]
    simp [heapGet]

/-- C8 witness: the registration statement discharged on the concrete fresh
state, registering the cheveret capability table under "chevlib". -/
theorem C8_registration_witness :
    (lua_prepare freshState chevlibFields "chevlib").stack = freshState.stack
    ∧ (lua_prepare freshState chevlibFields "chevlib").globals = freshState.globals
    ∧ requireLoaded (lua_prepare freshState chevlibFields "chevlib") "chevlib" =
      some (.table freshState.nextId)
    ∧ heapGet (lua_prepare freshState chevlibFields "chevlib").heap
        freshState.nextId = some chevlibFields
    ∧ paperMainRegister freshState chevlibFields =
      lua_prepare freshState chevlibFields "paperlib" :=
  C8_registration_module_cache_only freshState chevlibFields "chevlib"
    0 1 [("loaded", LVal.table 1)] []
    (by decide) (by decide) (by decide) (by decide)
    (by decide) (by decide) (by decide)
